import Mathlib

/-!
Shallow embedding of the STT-for-Windows recording client, covering the
Recorder state machine (package `record`), the capture worker loop
(`Recorder.recordLoop`), the hotkey spec parser and low-level keyboard hook
(package `hotkey`), and the JSON text extraction helpers (package `jsonpath`).
Each definition mirrors the corresponding Go function; the theorems at the end
of the file settle the specification claims about them.
-/

deriving instance DecidableEq for Except

namespace STT

namespace Record

/-- Recorder state, mirroring `record.State` (`StateIdle` .. `StateCanceled`). -/
inductive State where
  | idle
  | recording
  | paused
  | stopping
  | canceled
  deriving DecidableEq, Repr

/-- The mutable fields of `record.Recorder` that the transition claims are
about: the state enum, the number of currently active capture workers
(goroutines spawned by `Start` whose `recordLoop` has not yet called
`finish`), and the number of times `stopCancel` has been invoked. -/
structure Rec where
  state : State
  workers : Nat
  signals : Nat
  deriving DecidableEq, Repr

/-- `Recorder.Start`: rejects with "recorder not idle" unless the state is
`Idle`; otherwise sets the state to `Recording` and spawns one worker
goroutine.  The error branch performs no field writes, which the embedding
expresses by returning the receiver unchanged. -/
def startR (r : Rec) : Option String × Rec :=
  if r.state ≠ State.idle then (some "recorder not idle", r)
  else (none, { r with state := State.recording, workers := r.workers + 1 })

/-- `Recorder.Stop`: rejects with "recorder not running" unless the state is
`Recording` or `Paused`; otherwise sets the state to `Stopping` and signals
the worker via `stopCancel`. -/
def stopR (r : Rec) : Option String × Rec :=
  if r.state ≠ State.recording ∧ r.state ≠ State.paused then
    (some "recorder not running", r)
  else (none, { r with state := State.stopping, signals := r.signals + 1 })

/-- `Recorder.Cancel`: rejects with "recorder not running" unless the state is
`Recording` or `Paused`; otherwise sets the state to `Canceled` and signals
the worker via `stopCancel`. -/
def cancelR (r : Rec) : Option String × Rec :=
  if r.state ≠ State.recording ∧ r.state ≠ State.paused then
    (some "recorder not running", r)
  else (none, { r with state := State.canceled, signals := r.signals + 1 })

/-- `Recorder.TogglePause`: rejects with "recorder not running" unless the
state is `Recording` or `Paused`; otherwise flips between the two. -/
def togglePauseR (r : Rec) : Option String × Rec :=
  if r.state ≠ State.recording ∧ r.state ≠ State.paused then
    (some "recorder not running", r)
  else if r.state = State.paused then (none, { r with state := State.recording })
  else (none, { r with state := State.paused })

/-- `Recorder.finish`: the worker's single exit point; sets the state back to
`Idle` (under the mutex) and then delivers the result, after which the worker
goroutine terminates. -/
def finishR (r : Rec) : Rec :=
  { r with state := State.idle, workers := r.workers - 1 }

/-- Commands and worker-completion events that can act on the recorder. -/
inductive Ev where
  | start
  | stop
  | cancel
  | toggle
  | finish
  deriving DecidableEq, Repr

/-- One event acting on the recorder (commands ignore their error result;
the mutex serializes them, so a trace is an arbitrary interleaving). -/
def step (r : Rec) : Ev → Rec
  | Ev.start => (startR r).2
  | Ev.stop => (stopR r).2
  | Ev.cancel => (cancelR r).2
  | Ev.toggle => (togglePauseR r).2
  | Ev.finish => finishR r

/-- `record.New` yields an idle recorder with no worker. -/
def initRec : Rec := { state := State.idle, workers := 0, signals := 0 }

/-- Run a sequence of command / completion events from the initial recorder. -/
def runRec (evs : List Ev) : Rec :=
  evs.foldl step initRec

/-- Invariant tying the state enum to the number of active workers. -/
def RecInv (r : Rec) : Prop :=
  (r.state = State.idle ↔ r.workers = 0) ∧ r.workers ≤ 1

/-- Session-terminal error kinds produced by `recordLoop`, standing for the
wrapped Go error values. -/
inductive ErrKind where
  | paInit
  | openStream
  | startStream
  | createFile
  | wavWrite
  | wavClose
  deriving DecidableEq, Repr

/-- `record.Result`: delivered once per session on the `done` channel. -/
structure CaptureResult where
  wavPath : String
  canceled : Bool
  err : Option ErrKind
  deriving DecidableEq, Repr

/-- One iteration of the body of the `recordLoop` for-loop, as observed by the
worker: a paused poll (sleep and continue), a failed `stream.Read` (logged and
skipped), a buffer read that is encoded successfully, or a buffer read whose
`enc.Write` fails. -/
inductive LoopEvent where
  | pausedTick
  | readErr
  | writeOk
  | writeErr
  deriving DecidableEq, Repr

/-- How the for-loop is left when no `enc.Write` failure ends it early:
`isCanceled()` observed true at the loop head (break), or `stopCtx.Done()`
observed fired (goto done).  Once `Cancel`/`Stop` has set the state it stays
`Canceled`/`Stopping` until `finish`, so the `isCanceled()` re-check at the
`done:` label agrees with the terminator. -/
inductive Terminator where
  | cancelSeen
  | stopSeen
  deriving DecidableEq, Repr

/-- Failures of the set-up phase of `recordLoop`, before the for-loop runs:
`portaudio.Initialize`, `portaudio.OpenDefaultStream`, `stream.Start`,
`os.Create`. -/
inductive PreFail where
  | paInit
  | openStream
  | startStream
  | createFile
  deriving DecidableEq, Repr

/-- Observable outcome of one `recordLoop` run: the delivered result, the
recorder state at the instant the result is sent on `done`, whether the
temporary wav file is still on disk, whether the device stream and the file
handle are still open, and how many buffers were encoded. -/
structure Outcome where
  res : CaptureResult
  stateAtDelivery : State
  fileOnDisk : Bool
  streamOpen : Bool
  fileOpen : Bool
  encoded : Nat
  deriving DecidableEq, Repr

/-- Abstraction of `filepath.Join` adequate for path-emptiness reasoning. -/
def joinPath (dir file : String) : String :=
  if dir = "" then file else dir ++ "/" ++ file

/-- `Recorder.generateTempWav`: a fresh `RecordTemp_<id>.wav` name under
`tempDir`, falling back to the working directory when `tempDir` is empty
(`id` stands for the 16-character uuid fragment). -/
def generateTempWav (tempDir cwd id : String) : String :=
  let base := "RecordTemp_" ++ id ++ ".wav"
  let dir := if tempDir = "" then cwd else tempDir
  joinPath dir base

/-- `Recorder.finish` applied to an exit path of `recordLoop`: the state is
set to `Idle` before the result is delivered on `done`. -/
def finishO (res : CaptureResult) (fileOnDisk streamOpen fileOpen : Bool)
    (encoded : Nat) : Outcome :=
  { res := res, stateAtDelivery := State.idle, fileOnDisk := fileOnDisk,
    streamOpen := streamOpen, fileOpen := fileOpen, encoded := encoded }

/-- The for-loop of `recordLoop` together with the `done:` epilogue.  Paused
polls and failed `stream.Read`s skip the iteration; a successful read is
encoded; a failed `enc.Write` closes encoder, file and stream, removes the
partial file and finishes with the error.  When the events are exhausted the
loop is left via `term`: on cancel the file is removed and an empty-path
canceled result is delivered; on stop the encoder is flushed (`encCloseOk`
says whether `enc.Close` succeeds) and the result carries the wav path. -/
def loopRun (wavPath : String) (encoded : Nat) :
    List LoopEvent → Terminator → Bool → Outcome
  | [], Terminator.cancelSeen, _ =>
    finishO { wavPath := "", canceled := true, err := none } false false false encoded
  | [], Terminator.stopSeen, encCloseOk =>
    if encCloseOk then
      finishO { wavPath := wavPath, canceled := false, err := none } true false false encoded
    else
      finishO { wavPath := wavPath, canceled := false, err := some ErrKind.wavClose }
        false false false encoded
  | LoopEvent.pausedTick :: rest, term, encCloseOk =>
    loopRun wavPath encoded rest term encCloseOk
  | LoopEvent.readErr :: rest, term, encCloseOk =>
    loopRun wavPath encoded rest term encCloseOk
  | LoopEvent.writeOk :: rest, term, encCloseOk =>
    loopRun wavPath (encoded + 1) rest term encCloseOk
  | LoopEvent.writeErr :: _, _, _ =>
    finishO { wavPath := wavPath, canceled := false, err := some ErrKind.wavWrite }
      false false false encoded

/-- Map a set-up failure to the error it reports. -/
def preErr : PreFail → ErrKind
  | PreFail.paInit => ErrKind.paInit
  | PreFail.openStream => ErrKind.openStream
  | PreFail.startStream => ErrKind.startStream
  | PreFail.createFile => ErrKind.createFile

/-- `Recorder.recordLoop`: generates the temp wav name, runs the set-up phase
(each failure finishes early with its error and closes what was opened so
far; no file exists yet on those paths), then runs the capture loop. -/
def recordLoop (tempDir cwd id : String) (pre : Option PreFail)
    (events : List LoopEvent) (term : Terminator) (encCloseOk : Bool) : Outcome :=
  let wavPath := generateTempWav tempDir cwd id
  match pre with
  | some f =>
    finishO { wavPath := wavPath, canceled := false, err := some (preErr f) }
      false false false 0
  | none => loopRun wavPath 0 events term encCloseOk

end Record

namespace Hotkey

/-- The modifier-token switch of `parseHotkey`: the bit a recognised modifier
name contributes (MOD_ALT, MOD_CONTROL, MOD_SHIFT, MOD_WIN); any other token
falls into the empty `default` case and contributes nothing. -/
def modTok (p : String) : Nat :=
  match p with
  | "alt" | "menu" => 0x0001
  | "ctrl" | "control" => 0x0002
  | "shift" => 0x0004
  | "win" | "meta" | "super" => 0x0008
  | _ => 0

/-- Decimal digit-run value, `none` when empty or a non-digit occurs. -/
def digitsVal (cs : List Char) : Option Nat :=
  if cs = [] then none
  else if cs.all Char.isDigit then
    some (cs.foldl (fun a c => a * 10 + (c.toNat - 48)) 0)
  else none

/-- Go `strconv.Atoi`: optional sign followed by a non-empty digit run.
Overflow is immaterial here — every caller range-checks the result. -/
def goAtoiL (cs : List Char) : Option Int :=
  match cs with
  | '+' :: rest => (digitsVal rest).map Int.ofNat
  | '-' :: rest => (digitsVal rest).map (fun n => -(Int.ofNat n))
  | _ => (digitsVal cs).map Int.ofNat

def goAtoi (s : String) : Option Int := goAtoiL s.data

/-- Go's `len(keyToken) == 1` test together with `keyToken[0]`: a string is
one byte long exactly when it is a single ASCII character; returns that
byte. -/
def singleByte (s : String) : Option Nat :=
  match s.data with
  | [c] => if c.toNat < 128 then some c.toNat else none
  | _ => none

/-- `strings.ToUpper` restricted to the single ASCII byte the fallback
uppercases. -/
def goUpperByte (b : Nat) : Nat :=
  if 97 ≤ b ∧ b ≤ 122 then b - 32 else b

/-- First key-token switch: esc / space / enter aliases. -/
def namedBasic (t : String) : Option Nat :=
  match t with
  | "esc" | "escape" => some 0x1B
  | "space" => some 0x20
  | "enter" | "return" => some 0x0D
  | _ => none

/-- Function keys: a leading "f" whose remainder Atoi-parses into 1..24 maps
to VK_F1 + (n-1) (`strings.HasPrefix` / `strings.TrimPrefix` expressed on
the character list). -/
def fKey (t : String) : Option Nat :=
  match t.data with
  | 'f' :: rest =>
    match goAtoiL rest with
    | some n => if 1 ≤ n ∧ n ≤ 24 then some (0x70 + (n - 1).toNat) else none
    | none => none
  | _ => none

/-- Numeric-pad keys and operator aliases (VK_NUMPAD0..9, VK_ADD,
VK_SUBTRACT). -/
def numpadKey (t : String) : Option Nat :=
  match t with
  | "numpad0" | "num0" | "kp0" => some 0x60
  | "numpad1" | "num1" | "kp1" => some 0x61
  | "numpad2" | "num2" | "kp2" => some 0x62
  | "numpad3" | "num3" | "kp3" => some 0x63
  | "numpad4" | "num4" | "kp4" => some 0x64
  | "numpad5" | "num5" | "kp5" => some 0x65
  | "numpad6" | "num6" | "kp6" => some 0x66
  | "numpad7" | "num7" | "kp7" => some 0x67
  | "numpad8" | "num8" | "kp8" => some 0x68
  | "numpad9" | "num9" | "kp9" => some 0x69
  | "add" | "plus" | "kpadd" => some 0x6B
  | "subtract" | "minus" | "kpsubtract" => some 0x6D
  | _ => none

/-- The `named` map of navigation keys. -/
def namedNav (t : String) : Option Nat :=
  match t with
  | "tab" => some 0x09
  | "backspace" => some 0x08
  | "insert" => some 0x2D
  | "delete" => some 0x2E
  | "home" => some 0x24
  | "end" => some 0x23
  | "pageup" => some 0x21
  | "pagedown" => some 0x22
  | "left" => some 0x25
  | "up" => some 0x26
  | "right" => some 0x27
  | "down" => some 0x28
  | _ => none

/-- The key-token resolution chain after the single letter/digit test, in
source order: basic names, function keys, numeric pad, navigation names, and
finally the single-character fallback that uppercases any remaining one-byte
token. -/
def resolveKeyRest (t : String) : Option Nat :=
  match namedBasic t with
  | some v => some v
  | none =>
    match fKey t with
    | some v => some v
    | none =>
      match numpadKey t with
      | some v => some v
      | none =>
        match namedNav t with
        | some v => some v
        | none =>
          match singleByte t with
          | some ch => some (goUpperByte ch)
          | none => none

/-- Full key-token resolution: single lowercase letters map to their
uppercase virtual-key code, single digits to themselves, everything else to
the chain above. -/
def resolveKey (t : String) : Option Nat :=
  match singleByte t with
  | some ch =>
    if 97 ≤ ch ∧ ch ≤ 122 then some (ch - 97 + 65)
    else if 48 ≤ ch ∧ ch ≤ 57 then some ch
    else resolveKeyRest t
  | none => resolveKeyRest t

/-- `unicode.IsSpace` on the one-byte-relevant range (ASCII whitespace plus
NEL and NBSP); hotkey specs are ASCII. -/
def goIsSpace (c : Char) : Bool :=
  c = ' ' || c = '\t' || c = '\n' || c.toNat = 11 || c.toNat = 12 || c = '\r'
    || c.toNat = 0x85 || c.toNat = 0xA0

/-- `strings.ToLower` on the ASCII range the key names live in. -/
def goToLower (c : Char) : Char :=
  if 'A' ≤ c ∧ c ≤ 'Z' then Char.ofNat (c.toNat + 32) else c

/-- `strings.TrimSpace`: strip leading and trailing whitespace. -/
def trimL (cs : List Char) : List Char :=
  ((cs.dropWhile goIsSpace).reverse.dropWhile goIsSpace).reverse

/-- `strings.Split` with a single-character separator, at the character
level. -/
def splitOnChar (sep : Char) : List Char → List (List Char)
  | [] => [[]]
  | c :: rest =>
    if c = sep then [] :: splitOnChar sep rest
    else
      match splitOnChar sep rest with
      | t :: ts => (c :: t) :: ts
      | [] => [[c]]

/-- The token list `parseHotkey` works on: split at '+', each part
lowercased then trimmed (`strings.TrimSpace(strings.ToLower(p))`). -/
def normTokens (s : String) : List String :=
  (splitOnChar '+' s.data).map (fun cs => String.mk (trimL (cs.map goToLower)))

/-- The key token: the last part (the only part when there is no '+'). -/
def keyTokenOf (s : String) : String := (normTokens s).getLastD ""

/-- The modifier mask: zero for a single-part spec, otherwise the or-fold of
the modifier switch over all non-final parts. -/
def modMaskOf (s : String) : Nat :=
  let parts := normTokens s
  if parts.length = 1 then 0
  else parts.dropLast.foldl (fun m p => m ||| modTok p) 0

/-- `parseHotkey`: empty specs are rejected; otherwise the modifier mask and
the resolved key code are returned, or an unsupported-key-token error when
the final token resolves to nothing. -/
def parseHotkey (s : String) : Except String (Nat × Nat) :=
  if s = "" then Except.error "empty key"
  else
    match resolveKey (keyTokenOf s) with
    | some vk => Except.ok (modMaskOf s, vk)
    | none => Except.error ("unsupported key token: " ++ s)

/-- Whether an `Except` result is a success. -/
def isOkE (e : Except String (Nat × Nat)) : Bool :=
  match e with
  | Except.ok _ => true
  | Except.error _ => false

/-- The multi-character key names `parseHotkey` knows (everything the
resolution chain accepts other than the single-character cases). -/
def knownMultiKey (t : String) : Bool :=
  (namedBasic t).isSome || (fKey t).isSome || (numpadKey t).isSome || (namedNav t).isSome

end Hotkey

namespace Hook

def WM_KEYDOWN : Nat := 0x0100

def WM_KEYUP : Nat := 0x0101

def WM_SYSKEYDOWN : Nat := 0x0104

def WM_SYSKEYUP : Nat := 0x0105

/-- One event delivered to the WH_KEYBOARD_LL callback: the hook code, the
message (wParam), the virtual key code, the LLKHF_INJECTED flag bit of the
KBDLLHOOKSTRUCT, and the live `GetAsyncKeyState` answers for the modifier
keys at the instant of the event (left and right Windows keys separately). -/
structure KeyEvent where
  nCode : Int
  msg : Nat
  vk : Nat
  injected : Bool
  ctrl : Bool
  alt : Bool
  shift : Bool
  lwin : Bool
  rwin : Bool
  deriving DecidableEq, Repr

/-- `modsSatisfied`: checks a candidate's required mask against live modifier
state in the fixed order Ctrl, Alt, Shift, Win (either Windows key). -/
def modsSatisfied (e : KeyEvent) (required : Nat) : Bool :=
  if required == 0 then true
  else if required &&& 0x0002 != 0 && !e.ctrl then false
  else if required &&& 0x0001 != 0 && !e.alt then false
  else if required &&& 0x0004 != 0 && !e.shift then false
  else if required &&& 0x0008 != 0 && !e.lwin && !e.rwin then false
  else true

/-- A registered hotkey candidate: command id and required modifier mask. -/
structure Candidate where
  id : Nat
  mod : Nat
  deriving DecidableEq, Repr

/-- The `lookup` map from virtual key code to its candidates. -/
abbrev Lookup := List (Nat × List Candidate)

def lookupVk (lk : Lookup) (vk : Nat) : Option (List Candidate) :=
  (lk.find? (fun kv => kv.1 == vk)).map (fun kv => kv.2)

/-- The candidate loop: first candidate whose modifiers are live wins. -/
def firstMatch (e : KeyEvent) : List Candidate → Option Candidate
  | [] => none
  | c :: cs => if modsSatisfied e c.mod then some c else firstMatch e cs

/-- What the callback does with one event: forward it down the hook chain
(`CallNextHookEx`), consume a key-down and dispatch command `id`
(`go handler(id); return 1`), or consume the key-up of a swallowed key. -/
inductive HookAction where
  | forward
  | swallowDown (id : Nat)
  | swallowUp
  deriving DecidableEq, Repr

/-- `swallowed[vk] = true` on the `swallowed` map. -/
def swInsert (sw : List Nat) (vk : Nat) : List Nat :=
  if sw.contains vk then sw else vk :: sw

/-- `delete(swallowed, vk)`. -/
def swErase (sw : List Nat) (vk : Nat) : List Nat :=
  sw.filter (fun v => v != vk)

/-- The key-down matching block: only key-down messages consult the lookup
map, taking the first candidate whose modifiers are live. -/
def downMatch (lk : Lookup) (e : KeyEvent) : Option Candidate :=
  if e.msg == WM_KEYDOWN || e.msg == WM_SYSKEYDOWN then
    match lookupVk lk e.vk with
    | some cands => firstMatch e cands
    | none => none
  else none

/-- The hook callback for one event, given the current `swallowed` map:
negative hook codes and injected events are forwarded untouched; a matched
key-down is consumed, dispatched and marked; a key-up whose key is marked is
consumed and unmarked; everything else is forwarded. -/
def hookStep (lk : Lookup) (sw : List Nat) (e : KeyEvent) : HookAction × List Nat :=
  if e.nCode < 0 then (HookAction.forward, sw)
  else if e.injected then (HookAction.forward, sw)
  else
    match downMatch lk e with
    | some c => (HookAction.swallowDown c.id, swInsert sw e.vk)
    | none =>
      if (e.msg == WM_KEYUP || e.msg == WM_SYSKEYUP) && sw.contains e.vk then
        (HookAction.swallowUp, swErase sw e.vk)
      else (HookAction.forward, sw)

/-- The `swallowed` map after the callback has processed a whole event
sequence. -/
def runHook (lk : Lookup) (sw : List Nat) : List KeyEvent → List Nat
  | [] => sw
  | e :: es => runHook lk (hookStep lk sw e).2 es

/-- A genuine (processable, hardware) key-up for `vk`: hook code ≥ 0, not
injected, a key-up message, the same virtual key — the matching release of a
physical key press. -/
def genuineKeyUp (vk : Nat) (e : KeyEvent) : Bool :=
  decide (0 ≤ e.nCode) && !e.injected
    && (e.msg == WM_KEYUP || e.msg == WM_SYSKEYUP) && e.vk == vk

end Hook

namespace Jsonpath

/-- A parsed JSON value as produced by `json.Unmarshal` into `interface{}`:
strings, numbers (float64 — carried here as the text Go's integral-check
formatting renders, since only that string form is ever consumed), booleans,
null, arrays and objects (field order standing for one admissible Go map
iteration order). -/
inductive JValue where
  | str (s : String)
  | num (rendered : String)
  | jbool (b : Bool)
  | null
  | arr (xs : List JValue)
  | obj (fields : List (String × JValue))

/-- `strings.Index` at the character level. -/
def findIdx (c : Char) : List Char → Option Nat
  | [] => none
  | x :: xs => if x = c then some 0 else (findIdx c xs).map (fun n => n + 1)

/-- Inside one bracket group of the `ParseKeyAndIndexes` loop: `acc` holds
the (reversed) characters read so far of the group that the first ']' will
close; the group must be non-empty and Atoi-parse, and after the ']' the
remainder must be exhausted or open the next group. -/
def parseIdxsAux : List Char → List Char → Option (List Int)
  | [], _ => none
  | c :: rest, acc =>
    if c = ']' then
      if acc = [] then none
      else
        match Hotkey.goAtoiL acc.reverse with
        | none => none
        | some n =>
          match rest with
          | [] => some [n]
          | '[' :: rest' =>
            match parseIdxsAux rest' [] with
            | none => none
            | some ns => some (n :: ns)
          | _ => none
    else parseIdxsAux rest (c :: acc)

/-- The index-parsing loop of `ParseKeyAndIndexes`: the remainder must be a
chain of bracket groups, each closed by its first ']'. -/
def parseIdxs : List Char → Option (List Int)
  | [] => some []
  | '[' :: rest => parseIdxsAux rest []
  | _ => none

/-- `ParseKeyAndIndexes`: splits a path segment like `foo[0][1]` into its
base key and index list; the empty token and malformed index syntax are
errors (`none`). -/
def ParseKeyAndIndexes (token : String) : Option (String × List Int) :=
  if token = "" then none
  else
    match findIdx '[' token.data with
    | none => some (token, [])
    | some br =>
      match parseIdxs (token.data.drop br) with
      | none => none
      | some idxs => some (String.mk (token.data.take br), idxs)

/-- Go map indexing `m[key]` over the object's fields. -/
def lookupField (fields : List (String × JValue)) (key : String) : Option JValue :=
  (fields.find? (fun kv => kv.1 == key)).map (fun kv => kv.2)

/-- One `[idx]` application: requires an array and `0 ≤ idx < len`. -/
def stepIdx (cur : JValue) (idx : Int) : Option JValue :=
  match cur with
  | JValue.arr xs =>
    if idx < 0 ∨ (xs.length : Int) ≤ idx then none
    else xs.get? idx.toNat
  | _ => none

/-- The key part of one path segment: an empty key (a segment like `[0]`)
leaves the value unchanged; otherwise the value must be an object holding
the key. -/
def keyStep (cur : JValue) (key : String) : Option JValue :=
  if key = "" then some cur
  else
    match cur with
    | JValue.obj fields => lookupField fields key
    | _ => none

/-- One path segment: parse it, apply the key lookup, then the index chain
(each early `return "", false` of the Go loop is `none` here). -/
def stepPart (cur : JValue) (part : String) : Option JValue :=
  match ParseKeyAndIndexes part with
  | none => none
  | some (key, idxs) =>
    idxs.foldl (fun acc idx => acc.bind (fun v => stepIdx v idx)) (keyStep cur key)

/-- The final type switch of `ExtractByPath`: strings, numbers and booleans
render to text; arrays, objects and null fail. -/
def renderPrimitive : JValue → Option String
  | JValue.str s => some s
  | JValue.num r => some r
  | JValue.jbool b => some (if b then "true" else "false")
  | _ => none

/-- `strings.Split(path, ".")`. -/
def pathParts (path : String) : List String :=
  (Hotkey.splitOnChar '.' path.data).map String.mk

/-- The part-by-part walk from the root. -/
def traverse (root : JValue) (path : String) : Option JValue :=
  (pathParts path).foldl (fun acc part => acc.bind (fun v => stepPart v part)) (some root)

/-- `ExtractByPath`: empty paths fail; otherwise walk the segments and
render the reached leaf, failing on any mis-step or non-primitive leaf. -/
def ExtractByPath (root : JValue) (path : String) : String × Bool :=
  if path = "" then ("", false)
  else
    match traverse root path with
    | none => ("", false)
    | some v =>
      match renderPrimitive v with
      | some s => (s, true)
      | none => ("", false)

/-- The `for _, val := range m` fallback: the first non-empty string value
(field order standing for Go's unspecified map iteration order). -/
def fallbackScan (fields : List (String × JValue)) : String :=
  match fields.find? (fun kv =>
      match kv.2 with
      | JValue.str s => s != ""
      | _ => false) with
  | some kv =>
    match kv.2 with
    | JValue.str s => s
    | _ => ""
  | none => ""

/-- `ExtractTextFromResponse` with the `json.Unmarshal` step abstracted to
its outcome: `none` stands for a body that is not valid JSON (the unmarshal
error branch returns "").  Otherwise: the configured path is tried first,
then the "text" field, then the first non-empty string value of a top-level
object. -/
def ExtractTextFromResponse (body : Option JValue) (textPath : String) : String :=
  match body with
  | none => ""
  | some root =>
    let viaPath :=
      if textPath ≠ "" then
        match ExtractByPath root textPath with
        | (v, true) => some v
        | (_, false) => none
      else none
    match viaPath with
    | some v => v
    | none =>
      match root with
      | JValue.obj fields =>
        match lookupField fields "text" with
        | some (JValue.str s) => s
        | some (JValue.num r) => r
        | some (JValue.jbool b) => if b then "true" else "false"
        | _ => fallbackScan fields
      | _ => ""

/-- Whether a value is an object. -/
def isObj : JValue → Bool
  | JValue.obj _ => true
  | _ => false

/-- Whether a value is an array. -/
def isArr : JValue → Bool
  | JValue.arr _ => true
  | _ => false

end Jsonpath

end STT

namespace STT

namespace Record

theorem recInv_step (r : Rec) (e : Ev) (h : RecInv r) : RecInv (step r e) := by
  obtain ⟨hiff, hle⟩ := h
  unfold RecInv
  cases e <;> cases hst : r.state <;>
    rw [hst] at hiff <;>
    simp [step, startR, stopR, cancelR, togglePauseR, finishR, hst] at hiff ⊢ <;>
    omega

theorem recInv_foldl (evs : List Ev) (r : Rec) (h : RecInv r) :
    RecInv (evs.foldl step r) := by
  induction evs generalizing r with
  | nil => exact h
  | cons e rest ih => exact ih (step r e) (recInv_step r e h)

theorem recInv_run (evs : List Ev) : RecInv (runRec evs) :=
  recInv_foldl evs initRec ⟨by simp [initRec], by simp [initRec]⟩

theorem joinPath_ne_empty (dir file : String) (h : file ≠ "") :
    joinPath dir file ≠ "" := by
  unfold joinPath
  split
  · exact h
  · intro hc
    have hl := congrArg String.length hc
    rw [String.length_append, String.length_append] at hl
    have h1 : "/".length = 1 := rfl
    have h0 : ("" : String).length = 0 := rfl
    rw [h1, h0] at hl
    omega

theorem generateTempWav_ne_empty (tempDir cwd id : String) :
    generateTempWav tempDir cwd id ≠ "" := by
  unfold generateTempWav
  apply joinPath_ne_empty
  intro hc
  have hl := congrArg String.length hc
  rw [String.length_append, String.length_append] at hl
  have h11 : "RecordTemp_".length = 11 := rfl
  have h4 : ".wav".length = 4 := rfl
  have h0 : ("" : String).length = 0 := rfl
  rw [h11, h4, h0] at hl
  omega

/-- C1: at most one capture worker is active at any instant; `Start` succeeds
and spawns a worker exactly when the state is `Idle` (setting it to
`Recording`), and a `Start` in any other state is rejected with an error,
leaving the recorder untouched (never queued, no second worker). -/
theorem start_single_worker :
    (∀ evs : List Ev, (runRec evs).workers ≤ 1)
    ∧ (∀ r : Rec, r.state = State.idle →
        startR r = (none, { r with state := State.recording, workers := r.workers + 1 }))
    ∧ (∀ r : Rec, r.state ≠ State.idle → startR r = (some "recorder not idle", r)) := by
  refine ⟨fun evs => (recInv_run evs).2, fun r h => ?_, fun r h => ?_⟩
  · simp [startR, h]
  · simp [startR, h]

/-- C1 witness: two consecutive `Start`s still leave at most one worker; a
concrete idle recorder starts, and a concrete recording one is rejected. -/
theorem start_single_worker_witness :
    (runRec [Ev.start, Ev.start]).workers ≤ 1
    ∧ startR initRec = (none, { state := State.recording, workers := 1, signals := 0 })
    ∧ startR { state := State.recording, workers := 1, signals := 0 } =
        (some "recorder not idle", { state := State.recording, workers := 1, signals := 0 }) :=
  ⟨start_single_worker.1 [Ev.start, Ev.start],
    start_single_worker.2.1 initRec (by decide),
    start_single_worker.2.2 { state := State.recording, workers := 1, signals := 0 } (by decide)⟩

/-- C2: every transition request made outside its precondition fails with an
error and leaves every recorder field unchanged — in particular no worker is
spawned and no cancellation signal is issued. -/
theorem transitions_error_noop :
    ∀ r : Rec,
      (r.state ≠ State.idle → startR r = (some "recorder not idle", r))
      ∧ (r.state ≠ State.recording → r.state ≠ State.paused →
          stopR r = (some "recorder not running", r))
      ∧ (r.state ≠ State.recording → r.state ≠ State.paused →
          cancelR r = (some "recorder not running", r))
      ∧ (r.state ≠ State.recording → r.state ≠ State.paused →
          togglePauseR r = (some "recorder not running", r)) := by
  intro r
  refine ⟨fun h => by simp [startR, h],
    fun h1 h2 => by simp [stopR, h1, h2],
    fun h1 h2 => by simp [cancelR, h1, h2],
    fun h1 h2 => by simp [togglePauseR, h1, h2]⟩

/-- C2 witness: all four operations rejected on a concrete `Stopping`
recorder, each leaving it unchanged. -/
theorem transitions_error_noop_witness :
    startR { state := State.stopping, workers := 1, signals := 1 } =
      (some "recorder not idle", { state := State.stopping, workers := 1, signals := 1 })
    ∧ stopR { state := State.stopping, workers := 1, signals := 1 } =
      (some "recorder not running", { state := State.stopping, workers := 1, signals := 1 })
    ∧ cancelR { state := State.stopping, workers := 1, signals := 1 } =
      (some "recorder not running", { state := State.stopping, workers := 1, signals := 1 })
    ∧ togglePauseR { state := State.stopping, workers := 1, signals := 1 } =
      (some "recorder not running", { state := State.stopping, workers := 1, signals := 1 }) := by
  have h := transitions_error_noop { state := State.stopping, workers := 1, signals := 1 }
  exact ⟨h.1 (by decide), h.2.1 (by decide) (by decide),
    h.2.2.1 (by decide) (by decide), h.2.2.2 (by decide) (by decide)⟩

theorem loopRun_stateAtDelivery (wavPath : String) (encoded : Nat)
    (events : List LoopEvent) (term : Terminator) (ok : Bool) :
    (loopRun wavPath encoded events term ok).stateAtDelivery = State.idle := by
  induction events generalizing encoded with
  | nil => cases term <;> cases ok <;> rfl
  | cons e rest ih =>
    cases e with
    | pausedTick => exact ih encoded
    | readErr => exact ih encoded
    | writeOk => exact ih (encoded + 1)
    | writeErr => rfl

/-- C8: on every exit path of the capture worker — set-up failures, encoder
write failure, cancel, stop with or without a final flush error — the state is
set back to `Idle` before the completion result is delivered. -/
theorem worker_always_returns_idle :
    ∀ (tempDir cwd id : String) (pre : Option PreFail) (events : List LoopEvent)
      (term : Terminator) (encCloseOk : Bool),
      (recordLoop tempDir cwd id pre events term encCloseOk).stateAtDelivery = State.idle := by
  intro tempDir cwd id pre events term ok
  cases pre with
  | some f => rfl
  | none => exact loopRun_stateAtDelivery _ 0 events term ok

theorem loopRun_stop_no_writeErr (events : List LoopEvent)
    (h : LoopEvent.writeErr ∉ events) (wavPath : String) (encoded : Nat) (ok : Bool) :
    (loopRun wavPath encoded events Terminator.stopSeen ok).res.wavPath = wavPath
    ∧ (loopRun wavPath encoded events Terminator.stopSeen ok).res.canceled = false := by
  induction events generalizing encoded with
  | nil => cases ok <;> exact ⟨rfl, rfl⟩
  | cons e rest ih =>
    have hr : LoopEvent.writeErr ∉ rest := fun hm => h (List.mem_cons_of_mem e hm)
    cases e with
    | pausedTick => exact ih hr encoded
    | readErr => exact ih hr encoded
    | writeOk => exact ih hr (encoded + 1)
    | writeErr => exact absurd (List.mem_cons_self _ _) h

theorem loopRun_cancel_no_writeErr (events : List LoopEvent)
    (h : LoopEvent.writeErr ∉ events) (wavPath : String) (encoded : Nat) (ok : Bool) :
    (loopRun wavPath encoded events Terminator.cancelSeen ok).res.canceled = true
    ∧ (loopRun wavPath encoded events Terminator.cancelSeen ok).fileOnDisk = false
    ∧ (loopRun wavPath encoded events Terminator.cancelSeen ok).res.wavPath = "" := by
  induction events generalizing encoded with
  | nil => exact ⟨rfl, rfl, rfl⟩
  | cons e rest ih =>
    have hr : LoopEvent.writeErr ∉ rest := fun hm => h (List.mem_cons_of_mem e hm)
    cases e with
    | pausedTick => exact ih hr encoded
    | readErr => exact ih hr encoded
    | writeOk => exact ih hr (encoded + 1)
    | writeErr => exact absurd (List.mem_cons_self _ _) h

/-- C3: a session ended by `Stop` (no write failure, at least one buffer
encoded) yields a result with a non-empty wav path and `canceled = false`; a
session ended by `Cancel` yields `canceled = true`, the temp file removed
from disk and an empty wav path. -/
theorem capture_result_postcondition :
    (∀ (tempDir cwd id : String) (events : List LoopEvent) (ok : Bool),
        LoopEvent.writeErr ∉ events →
        1 ≤ events.count LoopEvent.writeOk →
        (recordLoop tempDir cwd id none events Terminator.stopSeen ok).res.wavPath ≠ ""
        ∧ (recordLoop tempDir cwd id none events Terminator.stopSeen ok).res.canceled = false)
    ∧ (∀ (tempDir cwd id : String) (events : List LoopEvent) (ok : Bool),
        LoopEvent.writeErr ∉ events →
        (recordLoop tempDir cwd id none events Terminator.cancelSeen ok).res.canceled = true
        ∧ (recordLoop tempDir cwd id none events Terminator.cancelSeen ok).fileOnDisk = false
        ∧ (recordLoop tempDir cwd id none events Terminator.cancelSeen ok).res.wavPath = "") := by
  constructor
  · intro tempDir cwd id events ok h _
    have hs := loopRun_stop_no_writeErr events h (generateTempWav tempDir cwd id) 0 ok
    refine ⟨?_, hs.2⟩
    show (loopRun (generateTempWav tempDir cwd id) 0 events Terminator.stopSeen ok).res.wavPath ≠ ""
    rw [hs.1]
    exact generateTempWav_ne_empty tempDir cwd id
  · intro tempDir cwd id events ok h
    exact loopRun_cancel_no_writeErr events h (generateTempWav tempDir cwd id) 0 ok

/-- C3 witness: a concrete stop session with one encoded buffer, and a
concrete canceled session. -/
theorem capture_result_postcondition_witness :
    ((recordLoop "tmp" "" "abc" none [LoopEvent.writeOk] Terminator.stopSeen true).res.wavPath ≠ ""
      ∧ (recordLoop "tmp" "" "abc" none [LoopEvent.writeOk] Terminator.stopSeen true).res.canceled = false)
    ∧ ((recordLoop "tmp" "" "abc" none [LoopEvent.writeOk] Terminator.cancelSeen true).res.canceled = true
      ∧ (recordLoop "tmp" "" "abc" none [LoopEvent.writeOk] Terminator.cancelSeen true).fileOnDisk = false
      ∧ (recordLoop "tmp" "" "abc" none [LoopEvent.writeOk] Terminator.cancelSeen true).res.wavPath = "") :=
  ⟨capture_result_postcondition.1 "tmp" "" "abc" [LoopEvent.writeOk] true
      (by decide) (by decide),
    capture_result_postcondition.2 "tmp" "" "abc" [LoopEvent.writeOk] true (by decide)⟩

/-- C4 counterexample: a session whose stream hits a device read failure
(`stream.Read` error) is not torn down — the loop logs and continues, the
session later stops normally, the result reports no error and the temporary
file survives, contradicting the claim that any device I/O failure
mid-stream deletes the file and terminates with `CaptureResult.error` set. -/
theorem device_read_error_not_fatal :
    (recordLoop "" "" "0123456789abcdef" none [LoopEvent.readErr, LoopEvent.writeOk]
        Terminator.stopSeen true).res.err = none
    ∧ (recordLoop "" "" "0123456789abcdef" none [LoopEvent.readErr, LoopEvent.writeOk]
        Terminator.stopSeen true).fileOnDisk = true := ⟨rfl, rfl⟩

theorem loopRun_writeErr (pre : List LoopEvent) (h : LoopEvent.writeErr ∉ pre) :
    ∀ (wavPath : String) (encoded : Nat) (rest : List LoopEvent)
      (term : Terminator) (ok : Bool),
      (loopRun wavPath encoded (pre ++ LoopEvent.writeErr :: rest) term ok).res =
        { wavPath := wavPath, canceled := false, err := some ErrKind.wavWrite }
      ∧ (loopRun wavPath encoded (pre ++ LoopEvent.writeErr :: rest) term ok).fileOnDisk = false
      ∧ (loopRun wavPath encoded (pre ++ LoopEvent.writeErr :: rest) term ok).streamOpen = false
      ∧ (loopRun wavPath encoded (pre ++ LoopEvent.writeErr :: rest) term ok).fileOpen = false := by
  induction pre with
  | nil => intro wavPath encoded rest term ok; exact ⟨rfl, rfl, rfl, rfl⟩
  | cons e pre' ih =>
    have hr : LoopEvent.writeErr ∉ pre' := fun hm => h (List.mem_cons_of_mem e hm)
    intro wavPath encoded rest term ok
    cases e with
    | pausedTick => exact ih hr wavPath encoded rest term ok
    | readErr => exact ih hr wavPath encoded rest term ok
    | writeOk => exact ih hr wavPath (encoded + 1) rest term ok
    | writeErr => exact absurd (List.mem_cons_self _ _) h

/-- C4 amended: an encoder write failure mid-stream closes the encoder, file
handle and device stream, deletes the partial temporary file and finishes the
session reporting the failure; a failed device buffer read, in contrast, is
only logged — the iteration is skipped and the worker keeps running. -/
theorem encoder_write_failure_teardown :
    (∀ (tempDir cwd id : String) (pre rest : List LoopEvent)
        (term : Terminator) (ok : Bool), LoopEvent.writeErr ∉ pre →
      (recordLoop tempDir cwd id none (pre ++ LoopEvent.writeErr :: rest) term ok).res =
        { wavPath := generateTempWav tempDir cwd id, canceled := false,
          err := some ErrKind.wavWrite }
      ∧ (recordLoop tempDir cwd id none (pre ++ LoopEvent.writeErr :: rest) term ok).fileOnDisk = false
      ∧ (recordLoop tempDir cwd id none (pre ++ LoopEvent.writeErr :: rest) term ok).streamOpen = false
      ∧ (recordLoop tempDir cwd id none (pre ++ LoopEvent.writeErr :: rest) term ok).fileOpen = false)
    ∧ (∀ (wavPath : String) (encoded : Nat) (rest : List LoopEvent)
        (term : Terminator) (ok : Bool),
        loopRun wavPath encoded (LoopEvent.readErr :: rest) term ok =
          loopRun wavPath encoded rest term ok) := by
  constructor
  · intro tempDir cwd id pre rest term ok h
    exact loopRun_writeErr pre h (generateTempWav tempDir cwd id) 0 rest term ok
  · intro wavPath encoded rest term ok
    rfl

/-- C4 amended witness: a concrete write failure tears everything down, and a
concrete read failure is skipped. -/
theorem encoder_write_failure_teardown_witness :
    ((recordLoop "t" "" "x" none [LoopEvent.writeOk, LoopEvent.writeErr]
        Terminator.stopSeen true).res =
      { wavPath := generateTempWav "t" "" "x", canceled := false,
        err := some ErrKind.wavWrite }
      ∧ (recordLoop "t" "" "x" none [LoopEvent.writeOk, LoopEvent.writeErr]
          Terminator.stopSeen true).fileOnDisk = false
      ∧ (recordLoop "t" "" "x" none [LoopEvent.writeOk, LoopEvent.writeErr]
          Terminator.stopSeen true).streamOpen = false
      ∧ (recordLoop "t" "" "x" none [LoopEvent.writeOk, LoopEvent.writeErr]
          Terminator.stopSeen true).fileOpen = false)
    ∧ loopRun "w" 0 [LoopEvent.readErr] Terminator.stopSeen true =
        loopRun "w" 0 [] Terminator.stopSeen true :=
  ⟨encoder_write_failure_teardown.1 "t" "" "x" [LoopEvent.writeOk] []
      Terminator.stopSeen true (by decide),
    encoder_write_failure_teardown.2 "w" 0 [] Terminator.stopSeen true⟩

end Record

namespace Hotkey

theorem resolveKeyRest_isSome (t : String) :
    (resolveKeyRest t).isSome = (knownMultiKey t || (singleByte t).isSome) := by
  unfold resolveKeyRest knownMultiKey
  cases h1 : namedBasic t <;> cases h2 : fKey t <;> cases h3 : numpadKey t <;>
    cases h4 : namedNav t <;> cases hsb : singleByte t <;> simp

theorem resolveKey_isSome (t : String) :
    (resolveKey t).isSome = (knownMultiKey t || (singleByte t).isSome) := by
  unfold resolveKey
  cases hsb : singleByte t with
  | none =>
    rw [resolveKeyRest_isSome, hsb]
  | some ch =>
    have hrest := resolveKeyRest_isSome t
    rw [hsb] at hrest
    by_cases h1 : 97 ≤ ch ∧ ch ≤ 122
    · simp [h1, hsb]
    · by_cases h2 : 48 ≤ ch ∧ ch ≤ 57
      · simp [h1, h2, hsb]
      · simp [h1, h2, hsb, hrest]

theorem parse_isOk_eq (s : String) (hs : s ≠ "") :
    isOkE (parseHotkey s) = (resolveKey (keyTokenOf s)).isSome := by
  unfold parseHotkey
  rw [if_neg hs]
  cases hr : resolveKey (keyTokenOf s) <;> simp [hr, isOkE]

theorem foldl_modTok_skip (t : String) (ht : modTok t = 0) (pre post : List String) :
    ∀ init : Nat,
      List.foldl (fun m p => m ||| modTok p) init (pre ++ t :: post) =
        List.foldl (fun m p => m ||| modTok p) init (pre ++ post) := by
  induction pre with
  | nil =>
    intro init
    simp [List.foldl_cons, ht]
  | cons a pre' ih =>
    intro init
    simp only [List.cons_append, List.foldl_cons]
    exact ih (init ||| modTok a)

/-- C5: the concrete parser scenarios — "alt+q" gives (MOD_ALT, 'Q'),
"ctrl+numpad1" gives (MOD_CONTROL, VK_NUMPAD1), and "" and "numpad+" are
rejected. -/
theorem hotkey_scenarios :
    parseHotkey "alt+q" = Except.ok (0x0001, 81)
    ∧ parseHotkey "ctrl+numpad1" = Except.ok (0x0002, 0x61)
    ∧ isOkE (parseHotkey "") = false
    ∧ isOkE (parseHotkey "numpad+") = false := by
  refine ⟨?_, ?_, ?_, ?_⟩ <;> decide

/-- C6 counterexample: "-" names no known key — it is a single character that
is neither a letter nor a digit — yet `parseHotkey` accepts it through the
final single-character fallback, returning the byte unchanged as the key
code, contradicting the claim that every such token fails. -/
theorem single_char_fallback_accepted :
    parseHotkey "-" = Except.ok (0, 45) ∧ knownMultiKey "-" = false := by
  refine ⟨?_, ?_⟩ <;> decide

/-- C6 amended: `parseHotkey` succeeds iff the spec is non-empty and its
final normalized token is either a known multi-character key name (esc /
enter / f1..f24 / numpad aliases / navigation names) or any single
(one-byte) character — single letters and digits map to their key codes and
every other single character is accepted by the uppercase fallback rather
than rejected. -/
theorem parse_success_iff :
    ∀ s : String, isOkE (parseHotkey s) = true ↔
      (¬s = "" ∧ (knownMultiKey (keyTokenOf s) = true
        ∨ (singleByte (keyTokenOf s)).isSome = true)) := by
  intro s
  by_cases hs : s = ""
  · subst hs
    simp [parseHotkey, isOkE]
  · rw [parse_isOk_eq s hs, resolveKey_isSome]
    simp [hs]

/-- C9: a non-final token that is not a recognised modifier name contributes
nothing to the modifier mask; success never depends on the modifier tokens
at all (only on the spec being non-empty and the final token resolving), and
concretely the misspelled "ctl+q" parses to the same result as plain "q",
with the unknown modifier dropped. -/
theorem unknown_modifiers_ignored :
    (∀ (pre post : List String) (t : String), modTok t = 0 →
        List.foldl (fun m p => m ||| modTok p) 0 (pre ++ t :: post) =
          List.foldl (fun m p => m ||| modTok p) 0 (pre ++ post))
    ∧ (∀ s : String, isOkE (parseHotkey s) = true ↔
        (¬s = "" ∧ (resolveKey (keyTokenOf s)).isSome = true))
    ∧ parseHotkey "ctl+q" = Except.ok (0, 81)
    ∧ parseHotkey "q" = Except.ok (0, 81) := by
  refine ⟨fun pre post t ht => foldl_modTok_skip t ht pre post 0, fun s => ?_,
    by decide, by decide⟩
  by_cases hs : s = ""
  · subst hs
    simp [parseHotkey, isOkE]
  · rw [parse_isOk_eq s hs]
    simp [hs]

/-- C9 witness: the unrecognised token "ctl" contributes nothing to the
mask, and "ctl+q" parses successfully. -/
theorem unknown_modifiers_ignored_witness :
    List.foldl (fun m p => m ||| modTok p) 0 ["ctl"] =
        List.foldl (fun m p => m ||| modTok p) 0 []
    ∧ (isOkE (parseHotkey "ctl+q") = true ↔
        (¬"ctl+q" = "" ∧ (resolveKey (keyTokenOf "ctl+q")).isSome = true)) :=
  ⟨unknown_modifiers_ignored.1 [] [] "ctl" rfl,
    unknown_modifiers_ignored.2.1 "ctl+q"⟩

end Hotkey

namespace Hook

theorem swInsert_contains_self (sw : List Nat) (vk : Nat) :
    (swInsert sw vk).contains vk = true := by
  unfold swInsert
  split
  · assumption
  · simp

theorem swInsert_contains_mono (sw : List Nat) (vk v : Nat)
    (h : sw.contains v = true) : (swInsert sw vk).contains v = true := by
  unfold swInsert
  split
  · exact h
  · simp at h ⊢
    exact Or.inr h

theorem swErase_contains_other (sw : List Nat) (vk v : Nat)
    (h : sw.contains v = true) (hne : v ≠ vk) :
    (swErase sw vk).contains v = true := by
  unfold swErase
  simp [List.mem_filter] at h ⊢
  exact ⟨h, hne⟩

theorem swErase_contains_self (sw : List Nat) (v : Nat) :
    (swErase sw v).contains v = false := by
  unfold swErase
  simp [List.mem_filter]

theorem hookStep_injected (lk : Lookup) (sw : List Nat) (e : KeyEvent)
    (h : e.injected = true) : hookStep lk sw e = (HookAction.forward, sw) := by
  unfold hookStep
  by_cases h0 : e.nCode < 0 <;> simp [h0, h]

theorem swallowDown_marks (lk : Lookup) (sw : List Nat) (e : KeyEvent) (id : Nat)
    (h : (hookStep lk sw e).1 = HookAction.swallowDown id) :
    ((hookStep lk sw e).2).contains e.vk = true := by
  unfold hookStep at h ⊢
  by_cases h0 : e.nCode < 0
  · simp [h0] at h
  cases hinj : e.injected with
  | true => simp [h0, hinj] at h
  | false =>
    cases hdm : downMatch lk e with
    | some c =>
      simp [h0, hinj, hdm]
      have := swInsert_contains_self sw e.vk
      simpa using this
    | none =>
      by_cases hku : (e.msg = WM_KEYUP ∨ e.msg = WM_SYSKEYUP) ∧ e.vk ∈ sw
      · simp [h0, hinj, hdm, hku] at h
      · simp [h0, hinj, hdm, hku] at h

theorem swallowed_persists (lk : Lookup) (sw : List Nat) (v : Nat) (g : KeyEvent)
    (hv : sw.contains v = true) (hg : genuineKeyUp v g = false) :
    ((hookStep lk sw g).2).contains v = true := by
  unfold hookStep
  by_cases h0 : g.nCode < 0
  · simpa [h0] using hv
  cases hinj : g.injected with
  | true => simpa [h0, hinj] using hv
  | false =>
    cases hdm : downMatch lk g with
    | some c =>
      simp [h0, hinj, hdm]
      have := swInsert_contains_mono sw g.vk v hv
      simpa using this
    | none =>
      by_cases hku : (g.msg = WM_KEYUP ∨ g.msg = WM_SYSKEYUP) ∧ g.vk ∈ sw
      · have hne : v ≠ g.vk := by
          intro heq
          have h0' : (0 : Int) ≤ g.nCode := by omega
          simp [genuineKeyUp, h0', hinj, heq] at hg
          rcases hku.1 with hm | hm
          · exact hg.1 hm
          · exact hg.2 hm
        simp [h0, hinj, hdm, hku]
        have := swErase_contains_other sw g.vk v hv hne
        simpa using this
      · simpa [h0, hinj, hdm, hku] using hv

theorem runHook_persists (lk : Lookup) (v : Nat) (mid : List KeyEvent) :
    ∀ sw : List Nat, sw.contains v = true →
      (∀ g ∈ mid, genuineKeyUp v g = false) →
      (runHook lk sw mid).contains v = true := by
  induction mid with
  | nil => intro sw hv _; exact hv
  | cons g rest ih =>
    intro sw hv hall
    exact ih _ (swallowed_persists lk sw v g hv (hall g (List.mem_cons_self g rest)))
      (fun g' hg' => hall g' (List.mem_cons_of_mem g hg'))

theorem keyup_consumed (lk : Lookup) (sw : List Nat) (v : Nat) (f : KeyEvent)
    (hv : sw.contains v = true) (hf : genuineKeyUp v f = true) :
    (hookStep lk sw f).1 = HookAction.swallowUp
    ∧ ((hookStep lk sw f).2).contains v = false := by
  simp only [genuineKeyUp, Bool.and_eq_true] at hf
  obtain ⟨⟨⟨hn, hinj⟩, hmsg⟩, hvk⟩ := hf
  have h0 : ¬f.nCode < 0 := by
    have := of_decide_eq_true hn
    omega
  have hinj' : f.injected = false := by
    cases hb : f.injected
    · rfl
    · rw [hb] at hinj
      exact absurd hinj (by decide)
  have hvk' : f.vk = v := by simpa using hvk
  have hmsgP : f.msg = WM_KEYUP ∨ f.msg = WM_SYSKEYUP := by
    rw [Bool.or_eq_true] at hmsg
    rcases hmsg with h | h
    · exact Or.inl (by simpa using h)
    · exact Or.inr (by simpa using h)
  have hmemP : f.vk ∈ sw := by
    rw [hvk']
    simpa using hv
  have hdm : downMatch lk f = none := by
    unfold downMatch
    have hnd : (f.msg == WM_KEYDOWN || f.msg == WM_SYSKEYDOWN) = false := by
      rcases hmsgP with hm | hm <;>
        simp [hm, WM_KEYUP, WM_SYSKEYUP, WM_KEYDOWN, WM_SYSKEYDOWN]
    simp [hnd]
  have hstep : hookStep lk sw f = (HookAction.swallowUp, swErase sw f.vk) := by
    unfold hookStep
    rw [if_neg h0]
    simp [hinj', hdm, hmsgP, hmemP]
  rw [hstep, hvk']
  exact ⟨rfl, swErase_contains_self sw v⟩

/-- C7: the hook callback never touches injected events — they are forwarded
unmodified, never matched, and leave the swallowed map unchanged; a swallowed
key-down marks its key, the marker survives every event that is not a
genuine (non-injected, processable) key-up of that key, and the first
genuine key-up of a marked key is consumed with the marker cleared — so a
swallowed key-down is never followed by a forwarded matching key-up. -/
theorem hook_swallow_discipline :
    (∀ (lk : Lookup) (sw : List Nat) (e : KeyEvent), e.injected = true →
        hookStep lk sw e = (HookAction.forward, sw))
    ∧ (∀ (lk : Lookup) (sw : List Nat) (e : KeyEvent) (id : Nat),
        (hookStep lk sw e).1 = HookAction.swallowDown id →
        ((hookStep lk sw e).2).contains e.vk = true)
    ∧ (∀ (lk : Lookup) (sw : List Nat) (v : Nat) (mid : List KeyEvent) (f : KeyEvent),
        sw.contains v = true →
        (∀ g ∈ mid, genuineKeyUp v g = false) →
        genuineKeyUp v f = true →
        (hookStep lk (runHook lk sw mid) f).1 = HookAction.swallowUp
        ∧ ((hookStep lk (runHook lk sw mid) f).2).contains v = false) := by
  refine ⟨hookStep_injected, swallowDown_marks, ?_⟩
  intro lk sw v mid f hv hall hf
  exact keyup_consumed lk (runHook lk sw mid) v f (runHook_persists lk v mid sw hv hall) hf

/-- C7 witness: with a hook registered for key 65 and no required modifiers,
an injected key-down for 65 is forwarded with the map unchanged; a genuine
key-down is swallowed and marks 65; and from the marked map the genuine
key-up for 65 is consumed and the marker cleared. -/
theorem hook_swallow_discipline_witness :
    hookStep [(65, [{ id := 1, mod := 0 }])] []
        { nCode := 0, msg := WM_KEYDOWN, vk := 65, injected := true, ctrl := false,
          alt := false, shift := false, lwin := false, rwin := false } =
      (HookAction.forward, [])
    ∧ ((hookStep [(65, [{ id := 1, mod := 0 }])] []
        { nCode := 0, msg := WM_KEYDOWN, vk := 65, injected := false, ctrl := false,
          alt := false, shift := false, lwin := false, rwin := false }).2).contains 65 = true
    ∧ ((hookStep [(65, [{ id := 1, mod := 0 }])] (runHook [(65, [{ id := 1, mod := 0 }])] [65] [])
        { nCode := 0, msg := WM_KEYUP, vk := 65, injected := false, ctrl := false,
          alt := false, shift := false, lwin := false, rwin := false }).1 = HookAction.swallowUp
      ∧ ((hookStep [(65, [{ id := 1, mod := 0 }])] (runHook [(65, [{ id := 1, mod := 0 }])] [65] [])
        { nCode := 0, msg := WM_KEYUP, vk := 65, injected := false, ctrl := false,
          alt := false, shift := false, lwin := false, rwin := false }).2).contains 65 = false) :=
  ⟨hook_swallow_discipline.1 [(65, [{ id := 1, mod := 0 }])] []
      { nCode := 0, msg := WM_KEYDOWN, vk := 65, injected := true, ctrl := false,
        alt := false, shift := false, lwin := false, rwin := false } rfl,
    hook_swallow_discipline.2.1 [(65, [{ id := 1, mod := 0 }])] []
      { nCode := 0, msg := WM_KEYDOWN, vk := 65, injected := false, ctrl := false,
        alt := false, shift := false, lwin := false, rwin := false } 1 (by decide),
    hook_swallow_discipline.2.2 [(65, [{ id := 1, mod := 0 }])] [65] 65 []
      { nCode := 0, msg := WM_KEYUP, vk := 65, injected := false, ctrl := false,
        alt := false, shift := false, lwin := false, rwin := false }
      (by decide) (fun g hg => absurd hg (List.not_mem_nil g)) (by decide)⟩

end Hook

namespace Jsonpath

theorem foldl_bind_none (parts : List String) :
    parts.foldl (fun acc part => acc.bind (fun v => stepPart v part)) none = none := by
  induction parts with
  | nil => rfl
  | cons q rest ih => simpa using ih

theorem stepPart_bad (p : String) (hbad : ParseKeyAndIndexes p = none) (v : JValue) :
    stepPart v p = none := by
  unfold stepPart
  rw [hbad]

theorem foldl_bad_part (p : String) (hbad : ParseKeyAndIndexes p = none) :
    ∀ (parts : List String), p ∈ parts → ∀ acc : Option JValue,
      parts.foldl (fun acc part => acc.bind (fun v => stepPart v part)) acc = none := by
  intro parts
  induction parts with
  | nil => intro h; cases h
  | cons q rest ih =>
    intro hp acc
    rcases List.mem_cons.mp hp with hq | hq
    · subst hq
      have hstep : (acc.bind fun v => stepPart v p) = none := by
        cases acc with
        | none => rfl
        | some v => simpa using stepPart_bad p hbad v
      rw [List.foldl_cons, hstep]
      exact foldl_bind_none rest
    · rw [List.foldl_cons]
      exact ih hq _

/-- C10: JSON text extraction is total and never panics — `ExtractByPath`
returns `("", false)` on the empty path, whenever any path segment is
malformed, and whenever the walk or the leaf rendering fails; every failing
call returns exactly the empty string; each traversal step fails (rather
than faulting) on a missing key, a non-object receiving a key, a non-array
receiving an index, and a negative or out-of-range index; and
`ExtractTextFromResponse` returns `""` for any body that is not valid JSON
(the unmarshal-error branch, modelled as `none`). -/
theorem extraction_total_and_safe :
    (∀ textPath : String, ExtractTextFromResponse none textPath = "")
    ∧ (∀ root : JValue, ExtractByPath root "" = ("", false))
    ∧ (∀ (root : JValue) (path p : String), p ∈ pathParts path →
        ParseKeyAndIndexes p = none → ExtractByPath root path = ("", false))
    ∧ (∀ (root : JValue) (path : String), (ExtractByPath root path).2 = false →
        (ExtractByPath root path).1 = "")
    ∧ (∀ (cur : JValue) (key : String), ¬key = "" → isObj cur = false →
        keyStep cur key = none)
    ∧ (∀ (fields : List (String × JValue)) (key : String), ¬key = "" →
        lookupField fields key = none → keyStep (JValue.obj fields) key = none)
    ∧ (∀ (cur : JValue) (idx : Int), isArr cur = false → stepIdx cur idx = none)
    ∧ (∀ (xs : List JValue) (idx : Int), idx < 0 ∨ (xs.length : Int) ≤ idx →
        stepIdx (JValue.arr xs) idx = none)
    ∧ (∀ (root : JValue) (path : String) (v : JValue), traverse root path = some v →
        renderPrimitive v = none → ExtractByPath root path = ("", false)) := by
  refine ⟨fun _ => rfl, fun _ => rfl, ?_, ?_, ?_, ?_, ?_, ?_, ?_⟩
  · intro root path p hp hbad
    have ht : traverse root path = none := foldl_bad_part p hbad (pathParts path) hp (some root)
    unfold ExtractByPath
    split
    · rfl
    · rw [ht]
  · intro root path
    unfold ExtractByPath
    split
    · intro _; rfl
    · cases ht : traverse root path with
      | none => intro _; rfl
      | some v =>
        cases hr : renderPrimitive v with
        | none => intro _; simp [hr]
        | some s =>
          intro hfalse
          simp [hr] at hfalse
  · intro cur key hk hobj
    unfold keyStep
    rw [if_neg hk]
    cases cur <;> first | rfl | simp [isObj] at hobj
  · intro fields key hk hlf
    unfold keyStep
    rw [if_neg hk]
    exact hlf
  · intro cur idx harr
    unfold stepIdx
    cases cur <;> first | rfl | simp [isArr] at harr
  · intro xs idx h
    simp [stepIdx, h]
  · intro root path v ht hr
    unfold ExtractByPath
    split
    · rfl
    · rw [ht]
      simp [hr]

/-- C10 witness: one concrete instance of every failure mode — invalid JSON,
empty path, malformed segment, empty-string-on-failure, key into a string,
absent key, index into a string, out-of-range index, non-primitive leaf. -/
theorem extraction_total_and_safe_witness :
    ExtractTextFromResponse none "a.b" = ""
    ∧ ExtractByPath JValue.null "" = ("", false)
    ∧ ExtractByPath JValue.null "a[" = ("", false)
    ∧ (ExtractByPath JValue.null "x").1 = ""
    ∧ keyStep (JValue.str "s") "k" = none
    ∧ keyStep (JValue.obj [("a", JValue.null)]) "b" = none
    ∧ stepIdx (JValue.str "s") 0 = none
    ∧ stepIdx (JValue.arr []) 0 = none
    ∧ ExtractByPath (JValue.obj [("a", JValue.null)]) "a" = ("", false) :=
  ⟨extraction_total_and_safe.1 "a.b",
    extraction_total_and_safe.2.1 JValue.null,
    extraction_total_and_safe.2.2.1 JValue.null "a[" "a[" (by decide) (by rfl),
    extraction_total_and_safe.2.2.2.1 JValue.null "x" (by rfl),
    extraction_total_and_safe.2.2.2.2.1 (JValue.str "s") "k" (by decide) (by rfl),
    extraction_total_and_safe.2.2.2.2.2.1 [("a", JValue.null)] "b" (by decide) (by rfl),
    extraction_total_and_safe.2.2.2.2.2.2.1 (JValue.str "s") 0 (by rfl),
    extraction_total_and_safe.2.2.2.2.2.2.2.1 [] 0 (Or.inr (by decide)),
    extraction_total_and_safe.2.2.2.2.2.2.2.2 (JValue.obj [("a", JValue.null)]) "a"
      JValue.null (by rfl) (by rfl)⟩

end Jsonpath

end STT
